import Mathlib

/-!
Verification of the picotls protocol core against its public interface
(`include/picotls.h`).  Pure constants and the inline functions are
translated directly from the header; components whose implementation is
not part of the repository (the handshake driver, the record-protection
layer, the key schedule, buffer growth) are modelled from the
specification, as noted on each definition.
-/

/-! ## Error-class constants and macros (picotls.h lines 47-79) -/

def PTLS_ERROR_CLASS_SELF_ALERT : Nat := 0

def PTLS_ERROR_CLASS_PEER_ALERT : Nat := 0x100

def PTLS_ERROR_CLASS_INTERNAL : Nat := 0x200

/-- translation of `#define PTLS_ERROR_GET_CLASS(e) ((e) & ~0xff)`; the C
operand is a 32-bit `int`, so `~0xff` is the mask `0xffffff00`. -/
def PTLS_ERROR_GET_CLASS (e : Nat) : Nat := e &&& 0xffffff00

def PTLS_ALERT_TO_SELF_ERROR (e : Nat) : Nat := e + PTLS_ERROR_CLASS_SELF_ALERT

def PTLS_ALERT_TO_PEER_ERROR (e : Nat) : Nat := e + PTLS_ERROR_CLASS_PEER_ALERT

def PTLS_ERROR_TO_ALERT (e : Nat) : Nat := e &&& 0xff

def PTLS_ALERT_UNEXPECTED_MESSAGE : Nat := 10

def PTLS_ALERT_BAD_RECORD_MAC : Nat := 20

def PTLS_ALERT_HANDSHAKE_FAILURE : Nat := 40

def PTLS_ERROR_NO_MEMORY : Nat := PTLS_ERROR_CLASS_INTERNAL + 1

def PTLS_ERROR_HANDSHAKE_IN_PROGRESS : Nat := PTLS_ERROR_CLASS_INTERNAL + 2

def PTLS_ERROR_LIBRARY : Nat := PTLS_ERROR_CLASS_INTERNAL + 3

def PTLS_ERROR_INCOMPATIBLE_KEY : Nat := PTLS_ERROR_CLASS_INTERNAL + 4

/-- the four internal-error codes of the header (lines 76-79). -/
def ptlsInternalErrors : List Nat :=
  [PTLS_ERROR_NO_MEMORY, PTLS_ERROR_HANDSHAKE_IN_PROGRESS, PTLS_ERROR_LIBRARY,
   PTLS_ERROR_INCOMPATIBLE_KEY]

/-! ## Buffer (picotls.h lines 94-99, 364-377) -/

/-- mirror of `ptls_buffer_t`; `base` is the backing region, `none`
standing for the C `NULL` pointer. -/
structure MBuf where
  base : Option Nat
  capacity : Nat
  off : Nat
  is_allocated : Nat
  deriving DecidableEq, Repr

/-- translation of the inline `ptls_buffer_init`: the `assert(smallbuf !=
NULL)` is modelled by returning `none` on a null region (assertion
failure), and otherwise the four stores of the body. -/
def ptls_buffer_init (smallbuf : Option Nat) (smallbuf_size : Nat) : Option MBuf :=
  match smallbuf with
  | none => none
  | some p => some { base := some p, off := 0, capacity := smallbuf_size, is_allocated := 0 }

/-- Modelled from the spec: `ptls_buffer__release_memory` is only declared
in the header; per the spec, disposal "releases the heap region only if
one was allocated, never the caller's fixed region".  The result is the
region the call frees, if any. -/
def ptls_buffer__release_memory (buf : MBuf) : Option Nat :=
  if buf.is_allocated = 0 then none else buf.base

/-- translation of the inline `ptls_buffer_dispose`: release the memory,
then `*buf = (ptls_buffer_t){NULL}` zeroes every field.  The first
component records which region (if any) was freed. -/
def ptls_buffer_dispose (buf : MBuf) : Option Nat × MBuf :=
  (ptls_buffer__release_memory buf,
   { base := none, capacity := 0, off := 0, is_allocated := 0 })

/-! ## Claim C6: buffer growth -/

/-- doubling step of the growth policy, driven by a fuel argument that is
always sufficient (the capacity gains at least one byte per step). -/
def growCapAux : Nat → Nat → Nat → Nat
  | 0, cap, _ => cap
  | fuel + 1, cap, need => if need ≤ cap then cap else growCapAux fuel (max (2 * cap) 1) need

/-- Modelled from the spec: the growth policy of `ptls_buffer_reserve`
(whose implementation is not part of the repository) — "a new region
sized by a doubling/growth policy": the capacity is doubled until it
holds `need` bytes. -/
def growCap (cap need : Nat) : Nat := growCapAux need cap need

/-- Modelled from the spec: `ptls_buffer_reserve` (declared only in the
header) — ensure `delta` writable bytes past `off`, growing into a
freshly allocated region on demand; `alloc` is the allocator, returning
`none` when allocation fails, in which case the call reports
`PTLS_ERROR_NO_MEMORY` and the buffer keeps its prior state. -/
def ptls_buffer_reserve (alloc : Nat → Option Nat) (buf : MBuf) (delta : Nat) : Nat × MBuf :=
  if buf.off + delta ≤ buf.capacity then (0, buf)
  else
    match alloc (growCap buf.capacity (buf.off + delta)) with
    | none => (PTLS_ERROR_NO_MEMORY, buf)
    | some newbase =>
        (0, { base := some newbase, capacity := growCap buf.capacity (buf.off + delta),
              off := buf.off, is_allocated := 1 })

/-- a sample fixed-region buffer used by the reserve witness. -/
def sampleBuf : MBuf := { base := some 1, capacity := 16, off := 0, is_allocated := 0 }

/-! ## Handshake driver (ptls_handshake, picotls.h lines 305-313)

The implementation is not part of the repository; the model below follows
the header contract and the spec: input is buffered through a
pending-input cursor, each message is fully parsed before any state
mutation, transitions occur message by message, an out-of-order message
is fatal with an unexpected-message alert, and the returned `inlen` is
the number of bytes consumed. -/

/-- handshake-message framing: one type byte and a 24-bit big-endian
length, then the body; returns the message and the remaining bytes when
the buffer holds a complete message. -/
def parseMsg (buf : List Nat) : Option (Nat × List Nat × List Nat) :=
  match buf with
  | ty :: l2 :: l1 :: l0 :: rest =>
      let len := l2 * 65536 + l1 * 256 + l0
      if len ≤ rest.length then some (ty, rest.take len, rest.drop len) else none
  | _ => none

/-- outcome of draining complete messages from the pending buffer. -/
inductive HsOut where
  | done (leftover : List Nat)
  | more (expected : List Nat) (pending : List Nat)
  | fatal (e : Nat)
  deriving DecidableEq, Repr

/-- Modelled from the spec: the message loop of the handshake driver.
`expected` is the sequence of message types the state machine still
awaits; a complete message of the wrong type is fatal
(unexpected-message alert), an incomplete message leaves the buffer
untouched for the next call. -/
def hsLoop : List Nat → List Nat → HsOut
  | [], buf => .done buf
  | t :: exps, buf =>
      match parseMsg buf with
      | none => .more (t :: exps) buf
      | some (ty, _body, rest) =>
          if ty = t then hsLoop exps rest
          else .fatal (PTLS_ALERT_TO_SELF_ERROR PTLS_ALERT_UNEXPECTED_MESSAGE)

/-- connection state of the modelled handshake driver: the message types
still expected (empty once established), the pending-input cursor, and
the fatal error the connection is stuck at, if any. -/
structure ModelTls where
  expected : List Nat
  recvbuf : List Nat
  failed : Option Nat
  deriving DecidableEq, Repr

/-- a connection state that is live, or failed with a genuinely fatal
code (neither success nor the in-progress signal); every state the
driver produces satisfies this. -/
def ModelTls.liveOrFatal (t : ModelTls) : Bool :=
  match t.failed with
  | none => true
  | some e => (e != 0) && (e != PTLS_ERROR_HANDSHAKE_IN_PROGRESS)

/-- Modelled from the spec: `ptls_handshake` (declared only in the
header).  Returns the result code, the new connection state, and the
value of `*inlen` on return — which the header defines as the number of
input bytes consumed.  On `PTLS_ERROR_HANDSHAKE_IN_PROGRESS` all input
is consumed into the pending-input cursor. -/
def ptls_handshake (tls : ModelTls) (input : List Nat) : Nat × ModelTls × Nat :=
  match tls.failed with
  | some e => (e, tls, 0)
  | none =>
      match hsLoop tls.expected (tls.recvbuf ++ input) with
      | .done leftover => (0, ⟨[], leftover, none⟩, input.length - leftover.length)
      | .more exps pending => (PTLS_ERROR_HANDSHAKE_IN_PROGRESS, ⟨exps, pending, none⟩, input.length)
      | .fatal e => (e, ⟨tls.expected, [], some e⟩, input.length)

/-! ## Key schedule (ptls_hkdf_expand, picotls.h line 333) -/

/-- mirror of `ptls_hash_algorithm_t` (header lines 227-240), extended
with the HMAC the key schedule is built on (`ptls_hmac_create` is
declared only; the MAC itself is a pluggable back end). -/
structure ptls_hash_algorithm_t where
  block_size : Nat
  digest_size : Nat
  hmac : List Nat → List Nat → List Nat

/-- a hash back end conforming to its descriptor: every MAC it produces
is `digest_size` bytes. -/
def HashWF (H : ptls_hash_algorithm_t) : Prop :=
  ∀ k m, (H.hmac k m).length = H.digest_size

/-- block `T(i)` of HKDF-Expand: `T(0)` is empty and
`T(i+1) = HMAC(prk, T(i) ++ info ++ [i+1])`. -/
def hkdfT (H : ptls_hash_algorithm_t) (prk info : List Nat) : Nat → List Nat
  | 0 => []
  | i + 1 => H.hmac prk (hkdfT H prk info i ++ info ++ [(i + 1) % 256])

/-- concatenation `T(1) ++ ... ++ T(n)` of the expansion blocks. -/
def hkdfOkm (H : ptls_hash_algorithm_t) (prk info : List Nat) : Nat → List Nat
  | 0 => []
  | n + 1 => hkdfOkm H prk info n ++ hkdfT H prk info (n + 1)

/-- Modelled from the spec: `ptls_hkdf_expand` (declared only in the
header) — "standard counter-based expansion producing `outlen` bytes
(capped at 255 x digest_size; exceeding that is a library error)". -/
def ptls_hkdf_expand (H : ptls_hash_algorithm_t) (outlen : Nat) (prk info : List Nat) :
    Except Nat (List Nat) :=
  if 255 * H.digest_size < outlen then .error PTLS_ERROR_LIBRARY
  else .ok ((hkdfOkm H prk info ((outlen + H.digest_size - 1) / H.digest_size)).take outlen)

/-- a toy conforming hash back end used by witnesses. -/
def toyHash : ptls_hash_algorithm_t :=
  { block_size := 4, digest_size := 2, hmac := fun k m => [k.length % 256, m.length % 256] }

/-! ## Algorithm registry and negotiation (picotls.h lines 139-265) -/

/-- Modelled from the spec: an AEAD back end as the record layer sees it
— a seal/open transform pair with a fixed authentication-tag size
(the header exposes only the descriptor and the opaque
`do_transform`). -/
structure MAead where
  iv_size : Nat
  tag_size : Nat
  enc : List Nat → List Nat → List Nat → List Nat
  dec : List Nat → List Nat → List Nat → Option (List Nat)

/-- a conforming AEAD back end: opening what was sealed under the same
key and nonce recovers the plaintext, and sealing adds exactly the tag. -/
def MAead.Correct (A : MAead) : Prop :=
  ∀ k n pt, A.dec k n (A.enc k n pt) = some pt ∧
    (A.enc k n pt).length = pt.length + A.tag_size

/-- mirror of `ptls_cipher_suite_t` (header lines 242-246). -/
structure ptls_cipher_suite_t where
  id : Nat
  aead : MAead
  hash : ptls_hash_algorithm_t

/-- mirror of `ptls_key_exchange_algorithm_t` (header lines 139-153),
reduced to the TLS-registered ID that negotiation works on. -/
structure ptls_key_exchange_algorithm_t where
  id : Nat

/-- Modelled from the spec: server-side cipher-suite selection — "the
first suite (in the registry's own preference order, not the client's)
whose ID also appears in the peer's offered list; failing to find any
intersection is a fatal handshake-failure alert". -/
def negotiate_cipher_suite (registry : List ptls_cipher_suite_t) (offered : List Nat) :
    Except Nat ptls_cipher_suite_t :=
  match registry.find? (fun cs => offered.contains cs.id) with
  | some cs => .ok cs
  | none => .error PTLS_ALERT_HANDSHAKE_FAILURE

/-- Modelled from the spec: key-exchange group selection follows the same
first-match-wins rule. -/
def negotiate_key_exchange (registry : List ptls_key_exchange_algorithm_t)
    (offered : List Nat) : Except Nat ptls_key_exchange_algorithm_t :=
  match registry.find? (fun kx => offered.contains kx.id) with
  | some kx => .ok kx
  | none => .error PTLS_ALERT_HANDSHAKE_FAILURE

/-- a placeholder AEAD back end for registry entries in witnesses. -/
def dummyAead : MAead :=
  { iv_size := 12, tag_size := 0, enc := fun _ _ pt => pt, dec := fun _ _ ct => some ct }

/-- registry entry modelled on the AES-128-GCM/SHA-256 suite ID. -/
def suiteA : ptls_cipher_suite_t := { id := 0x1301, aead := dummyAead, hash := toyHash }

/-- registry entry modelled on the AES-256-GCM/SHA-384 suite ID. -/
def suiteB : ptls_cipher_suite_t := { id := 0x1302, aead := dummyAead, hash := toyHash }

/-! ## Claim C10: AEAD context fields above the marker line -/

/-- mirror of `ptls_aead_context_t` (header lines 159-167): `algo`, `seq`
and `static_iv` sit above the marker line; `bind` is the
implementation-specific state the crypto binding stuffs below it
(modelled, per the spec's design note, as a boxed state object). -/
structure MAeadContext (β : Type) where
  algo : Nat
  seq : Nat
  static_iv : List Nat
  bind : β

/-- Modelled from the spec: a crypto binding — the callbacks
`setup_crypto` (header lines 186-189), `do_transform` and
`dispose_crypto` (header lines 164-166).  Each may read the whole
context but yields only new implementation-specific state; the header
marks the fields above the line as off-limits: "field above this line
must not be altered by the crypto binding". -/
structure CryptoBinding (β : Type) where
  setup_crypto : MAeadContext β → Bool → List Nat → β
  do_transform : MAeadContext β → List Nat → List Nat → Nat → β
  dispose_crypto : MAeadContext β → β

/-- one invocation of a crypto-binding callback. -/
inductive BindingCall where
  | setup (is_enc : Bool) (key : List Nat)
  | transform (input : List Nat) (iv : List Nat) (enc_content_type : Nat)
  | dispose

/-- the core dispatches one binding call, writing back only the
implementation-specific state. -/
def applyBindingCall {β : Type} (B : CryptoBinding β) (ctx : MAeadContext β) :
    BindingCall → MAeadContext β
  | .setup e k => { ctx with bind := B.setup_crypto ctx e k }
  | .transform i iv t => { ctx with bind := B.do_transform ctx i iv t }
  | .dispose => { ctx with bind := B.dispose_crypto ctx }

/-- a whole sequence of binding calls. -/
def applyBindingCalls {β : Type} (B : CryptoBinding β) (ctx : MAeadContext β)
    (calls : List BindingCall) : MAeadContext β :=
  calls.foldl (applyBindingCall B) ctx

/-! ## Record protection layer (ptls_send / ptls_receive)

The implementation is absent from the repository; the layer is modelled
from the spec: a nonce built by XOR-ing the static IV with the
big-endian sequence number, the content type carried as authenticated
trailing metadata inside the AEAD payload, standard record framing
(type, version, 16-bit length, payload), fragmentation of oversized
input, and a receive that decrypts the first record and reports the
bytes it consumed. -/

def PTLS_ALERT_DECODE_ERROR : Nat := 50

def PTLS_CONTENT_TYPE_APPDATA : Nat := 23

/-- Modelled from the spec: the maximum plaintext carried by one record
("oversized input is fragmented"); the TLS record ceiling. -/
def PTLS_MAX_PLAINTEXT_SIZE : Nat := 16384

/-- one direction of record protection: the traffic key, the static IV
and the record sequence counter (mirroring `ptls_aead_context_t`). -/
structure MRecCtx where
  key : List Nat
  static_iv : List Nat
  seq : Nat
  deriving DecidableEq, Repr

/-- big-endian 64-bit encoding of the sequence number. -/
def be64 (n : Nat) : List Nat :=
  [n / 2 ^ 56 % 256, n / 2 ^ 48 % 256, n / 2 ^ 40 % 256, n / 2 ^ 32 % 256,
   n / 2 ^ 24 % 256, n / 2 ^ 16 % 256, n / 2 ^ 8 % 256, n % 256]

/-- Modelled from the spec: the per-record nonce — the static IV XOR-ed
with the big-endian sequence number (aligned to the IV's tail). -/
def buildNonce (iv : List Nat) (seq : Nat) : List Nat :=
  List.zipWith Nat.xor iv (List.replicate (iv.length - 8) 0 ++ be64 seq)

/-- seal one fragment: the content type is appended inside the protected
payload ("authenticated trailing metadata"). -/
def aeadSeal (A : MAead) (ctx : MRecCtx) (content_type : Nat) (pt : List Nat) : List Nat :=
  A.enc ctx.key (buildNonce ctx.static_iv ctx.seq) (pt ++ [content_type])

/-- wire framing of one protected record: outer application-data type,
legacy version, 16-bit big-endian length, ciphertext. -/
def encodeRecord (ct : List Nat) : List Nat :=
  PTLS_CONTENT_TYPE_APPDATA :: 3 :: 1 :: (ct.length / 256 % 256) :: (ct.length % 256) :: ct

/-- split the plaintext into fragments of at most
`PTLS_MAX_PLAINTEXT_SIZE` bytes. -/
def fragmentInput : List Nat → List (List Nat)
  | [] => []
  | x :: xs =>
      (x :: xs).take PTLS_MAX_PLAINTEXT_SIZE
        :: fragmentInput ((x :: xs).drop PTLS_MAX_PLAINTEXT_SIZE)
termination_by l => l.length
decreasing_by
  simp only [List.length_drop, List.length_cons, PTLS_MAX_PLAINTEXT_SIZE]
  omega

/-- protect a list of fragments: one record each, the sequence counter
stepping once per record. -/
def ptls_send_core (A : MAead) (ctx : MRecCtx) : List (List Nat) → List Nat × MRecCtx
  | [] => ([], ctx)
  | frag :: frags =>
      (encodeRecord (aeadSeal A ctx PTLS_CONTENT_TYPE_APPDATA frag)
          ++ (ptls_send_core A { ctx with seq := ctx.seq + 1 } frags).1,
        (ptls_send_core A { ctx with seq := ctx.seq + 1 } frags).2)

/-- Modelled from the spec: `ptls_send` — "encrypts given buffer into
multiple TLS records": fragment, then protect each fragment. -/
def ptls_send (A : MAead) (ctx : MRecCtx) (input : List Nat) : List Nat × MRecCtx :=
  ptls_send_core A ctx (fragmentInput input)

/-- Modelled from the spec: `ptls_receive` — "decrypts the first record
within given buffer", returning the plaintext, the advanced context and
the number of input bytes consumed; an authentication failure is the
bad-record-MAC alert, a malformed or incomplete record a decode
error. -/
def ptls_receive (A : MAead) (ctx : MRecCtx) (input : List Nat) :
    Except Nat (List Nat × MRecCtx × Nat) :=
  match input with
  | _t :: _v1 :: _v2 :: lhi :: llo :: rest =>
      if lhi * 256 + llo ≤ rest.length then
        match A.dec ctx.key (buildNonce ctx.static_iv ctx.seq) (rest.take (lhi * 256 + llo)) with
        | some ptct =>
            .ok (ptct.dropLast, { ctx with seq := ctx.seq + 1 }, 5 + (lhi * 256 + llo))
        | none => .error (PTLS_ALERT_TO_SELF_ERROR PTLS_ALERT_BAD_RECORD_MAC)
      else .error (PTLS_ALERT_TO_SELF_ERROR PTLS_ALERT_DECODE_ERROR)
  | _ => .error (PTLS_ALERT_TO_SELF_ERROR PTLS_ALERT_DECODE_ERROR)

/-- drain a whole buffer through `ptls_receive`, one record at a time,
concatenating the recovered plaintext; the fuel is bounded by the input
length (every successful receive consumes at least five bytes). -/
def receiveAllAux (A : MAead) : Nat → MRecCtx → List Nat → Option (List Nat × MRecCtx)
  | _, ctx, [] => some ([], ctx)
  | 0, _, _ :: _ => none
  | fuel + 1, ctx, x :: xs =>
      match ptls_receive A ctx (x :: xs) with
      | .ok (pt, ctx', consumed) =>
          match receiveAllAux A fuel ctx' ((x :: xs).drop consumed) with
          | some (r, ctxf) => some (pt ++ r, ctxf)
          | none => none
      | .error _ => none

/-- the caller's receive loop: iterate `ptls_receive` over the buffer. -/
def receiveAll (A : MAead) (ctx : MRecCtx) (input : List Nat) :
    Option (List Nat × MRecCtx) :=
  receiveAllAux A (input.length + 1) ctx input

/-- checksum tag of the toy AEAD back end. -/
def toyTag (k n pt : List Nat) : Nat := (k.sum + n.sum + pt.sum + pt.length) % 256

/-- a toy conforming AEAD back end used by the round-trip witness. -/
def toyAead : MAead :=
  { iv_size := 12, tag_size := 1,
    enc := fun k n pt => pt ++ [toyTag k n pt],
    dec := fun k n ct =>
      if ct = ct.dropLast ++ [toyTag k n ct.dropLast] then some ct.dropLast else none }

/-- cipher-suite record bundling the toy back ends. -/
def toySuite : ptls_cipher_suite_t := { id := 0x1301, aead := toyAead, hash := toyHash }

/-- the toy protection context shared by both ends of the witness. -/
def toyCtx : MRecCtx := { key := [5], static_iv := [9, 9, 9, 9, 9, 9, 9, 9, 9, 9, 9, 9], seq := 0 }

/-! ## Claim C4: error-class arithmetic -/

/-- a value below 256 has no bits in common with the high mask. -/
theorem land_high_mask_of_lt (a : Nat) (ha : a < 256) : a &&& 0xffffff00 = 0 := by
  apply Nat.eq_of_testBit_eq
  intro i
  rw [Nat.testBit_and]
  rcases Nat.lt_or_ge i 8 with h8 | h8
  · have hm : (0xffffff00 : Nat).testBit i = false := by interval_cases i <;> decide
    simp [hm]
  · have h2 : (256 : Nat) ≤ 2 ^ i := by
      calc (256 : Nat) = 2 ^ 8 := by norm_num
        _ ≤ 2 ^ i := Nat.pow_le_pow_right (by norm_num) h8
    have hx : a.testBit i = false := Nat.testBit_lt_two_pow (lt_of_lt_of_le ha h2)
    simp [hx]

/-- the high mask keeps exactly the ninth bit of `a + 0x100` when `a < 256`. -/
theorem land_high_mask_add (a : Nat) (ha : a < 256) : (a + 256) &&& 0xffffff00 = 256 := by
  apply Nat.eq_of_testBit_eq
  intro i
  rw [Nat.testBit_and]
  rcases Nat.lt_or_ge i 8 with h8 | h8
  · have hm : (0xffffff00 : Nat).testBit i = false := by interval_cases i <;> decide
    have h256 : (256 : Nat).testBit i = false := by interval_cases i <;> decide
    simp [hm, h256]
  · rcases Nat.lt_or_ge i 9 with h9 | h9
    · have hi : i = 8 := by omega
      subst hi
      have h1 : (a + 256).testBit 8 = true := by
        rw [Nat.testBit_to_div_mod]
        have h2 : (2 : Nat) ^ 8 = 256 := by norm_num
        rw [h2]
        simp only [decide_eq_true_eq]
        omega
      have hm : (0xffffff00 : Nat).testBit 8 = true := by decide
      have h256 : (256 : Nat).testBit 8 = true := by decide
      simp [h1, hm, h256]
    · have h2 : (512 : Nat) ≤ 2 ^ i := by
        calc (512 : Nat) = 2 ^ 9 := by norm_num
          _ ≤ 2 ^ i := Nat.pow_le_pow_right (by norm_num) h9
      have hx : (a + 256).testBit i = false :=
        Nat.testBit_lt_two_pow (lt_of_lt_of_le (by omega) h2)
      have h256 : (256 : Nat).testBit i = false :=
        Nat.testBit_lt_two_pow (lt_of_lt_of_le (by omega) h2)
      simp [hx, h256]

/-- the low mask is reduction modulo 256. -/
theorem land_low_mask (x : Nat) : x &&& 0xff = x % 256 := by
  have h := Nat.and_pow_two_sub_one_eq_mod x 8
  norm_num at h
  exact h

/-- C4: for every alert code `a < 256`, the self-alert encoding falls in
the self-alert class, the peer-alert encoding in the peer-alert class,
`PTLS_ERROR_TO_ALERT` recovers `a` from either encoding, the three
numeric ranges (self alerts in `[0, 0x100)`, peer alerts in
`[0x100, 0x200)`, the internal errors in `[0x200, 0x300)`) are pairwise
disjoint, and the class mask alone separates the three classes. -/
theorem ptls_error_class_partition (a : Nat) (ha : a < 256) :
    PTLS_ERROR_GET_CLASS (PTLS_ALERT_TO_SELF_ERROR a) = PTLS_ERROR_CLASS_SELF_ALERT ∧
    PTLS_ERROR_GET_CLASS (PTLS_ALERT_TO_PEER_ERROR a) = PTLS_ERROR_CLASS_PEER_ALERT ∧
    PTLS_ERROR_TO_ALERT (PTLS_ALERT_TO_SELF_ERROR a) = a ∧
    PTLS_ERROR_TO_ALERT (PTLS_ALERT_TO_PEER_ERROR a) = a ∧
    PTLS_ALERT_TO_SELF_ERROR a < 0x100 ∧
    0x100 ≤ PTLS_ALERT_TO_PEER_ERROR a ∧ PTLS_ALERT_TO_PEER_ERROR a < 0x200 ∧
    (∀ e ∈ ptlsInternalErrors,
      0x200 ≤ e ∧ e < 0x300 ∧ PTLS_ERROR_GET_CLASS e = PTLS_ERROR_CLASS_INTERNAL) ∧
    PTLS_ERROR_CLASS_SELF_ALERT ≠ PTLS_ERROR_CLASS_PEER_ALERT ∧
    PTLS_ERROR_CLASS_PEER_ALERT ≠ PTLS_ERROR_CLASS_INTERNAL ∧
    PTLS_ERROR_CLASS_SELF_ALERT ≠ PTLS_ERROR_CLASS_INTERNAL := by
  have hself : PTLS_ALERT_TO_SELF_ERROR a = a := by
    simp [PTLS_ALERT_TO_SELF_ERROR, PTLS_ERROR_CLASS_SELF_ALERT]
  have hpeer : PTLS_ALERT_TO_PEER_ERROR a = a + 256 := by
    simp [PTLS_ALERT_TO_PEER_ERROR, PTLS_ERROR_CLASS_PEER_ALERT]
  refine ⟨?_, ?_, ?_, ?_, ?_, ?_, ?_, ?_, ?_, ?_, ?_⟩
  · rw [hself]
    exact land_high_mask_of_lt a ha
  · rw [hpeer]
    exact land_high_mask_add a ha
  · rw [hself]
    show a &&& 0xff = a
    rw [land_low_mask]
    omega
  · rw [hpeer]
    show (a + 256) &&& 0xff = a
    rw [land_low_mask]
    omega
  · omega
  · omega
  · omega
  · decide
  · decide
  · decide
  · decide

/-- witness for C4 at the bad-record-mac alert code. -/
theorem ptls_error_class_partition_witness :
    PTLS_ERROR_GET_CLASS (PTLS_ALERT_TO_PEER_ERROR 20) = PTLS_ERROR_CLASS_PEER_ALERT :=
  (ptls_error_class_partition 20 (by decide)).2.1

/-! ## Claim C5: buffer initialisation -/

/-- C5: initialising a buffer over a non-null region of size `n` sets
`base` to that region, `off` to zero, `capacity` to `n` and
`is_allocated` to 0, which establishes the invariant `off ≤ capacity`;
a null region is rejected by the assertion. -/
theorem ptls_buffer_init_spec (p n : Nat) :
    (∃ buf, ptls_buffer_init (some p) n = some buf ∧
      buf.base = some p ∧ buf.off = 0 ∧ buf.capacity = n ∧ buf.is_allocated = 0 ∧
      buf.off ≤ buf.capacity) ∧
    ptls_buffer_init none n = none := by
  refine ⟨⟨_, rfl, rfl, rfl, rfl, rfl, Nat.zero_le _⟩, rfl⟩

/-! ## Claim C7: buffer disposal -/

/-- C7: disposal frees the backing region exactly when the buffer itself
allocated it (`is_allocated` set) — the caller's fixed region is never
freed — and afterwards every field is zero/NULL, a state that still
satisfies `off ≤ capacity`. -/
theorem ptls_buffer_dispose_spec (buf : MBuf) :
    (buf.is_allocated = 0 → (ptls_buffer_dispose buf).1 = none) ∧
    (buf.is_allocated ≠ 0 → (ptls_buffer_dispose buf).1 = buf.base) ∧
    (ptls_buffer_dispose buf).2.base = none ∧
    (ptls_buffer_dispose buf).2.capacity = 0 ∧
    (ptls_buffer_dispose buf).2.off = 0 ∧
    (ptls_buffer_dispose buf).2.is_allocated = 0 ∧
    (ptls_buffer_dispose buf).2.off ≤ (ptls_buffer_dispose buf).2.capacity := by
  refine ⟨fun h => ?_, fun h => ?_, rfl, rfl, rfl, rfl, Nat.le_refl _⟩
  · simp [ptls_buffer_dispose, ptls_buffer__release_memory, h]
  · simp [ptls_buffer_dispose, ptls_buffer__release_memory, h]

/-- witness for C7 on a heap-backed buffer. -/
theorem ptls_buffer_dispose_spec_witness :
    (ptls_buffer_dispose { base := some 7, capacity := 64, off := 3, is_allocated := 1 }).1
      = some 7 :=
  (ptls_buffer_dispose_spec { base := some 7, capacity := 64, off := 3, is_allocated := 1 }).2.1
    (by decide)

/-- the doubling loop reaches any target its fuel allows. -/
theorem growCapAux_ge (fuel cap need : Nat) (h : need ≤ cap + fuel) :
    need ≤ growCapAux fuel cap need := by
  induction fuel generalizing cap with
  | zero => simpa [growCapAux] using h
  | succ fuel ih =>
      rw [growCapAux]
      split
      · assumption
      · exact ih (max (2 * cap) 1) (by omega)

/-- the growth policy always reaches the requested size. -/
theorem growCap_ge (cap need : Nat) : need ≤ growCap cap need :=
  growCapAux_ge need cap need (by omega)

/-- C6: `ptls_buffer_reserve` either succeeds, guaranteeing
`off + delta ≤ capacity` with the offset intact, or fails with
`PTLS_ERROR_NO_MEMORY` leaving every field of the buffer exactly as it
was; no third outcome exists. -/
theorem ptls_buffer_reserve_spec (alloc : Nat → Option Nat) (buf : MBuf) (delta : Nat) :
    ((ptls_buffer_reserve alloc buf delta).1 = 0 ∨
      (ptls_buffer_reserve alloc buf delta).1 = PTLS_ERROR_NO_MEMORY) ∧
    ((ptls_buffer_reserve alloc buf delta).1 = 0 →
      (ptls_buffer_reserve alloc buf delta).2.off + delta
          ≤ (ptls_buffer_reserve alloc buf delta).2.capacity ∧
      (ptls_buffer_reserve alloc buf delta).2.off = buf.off) ∧
    ((ptls_buffer_reserve alloc buf delta).1 = PTLS_ERROR_NO_MEMORY →
      (ptls_buffer_reserve alloc buf delta).2 = buf) := by
  unfold ptls_buffer_reserve
  split
  · refine ⟨Or.inl rfl, fun _ => ⟨by assumption, rfl⟩, fun h => ?_⟩
    exact absurd h (by simp [PTLS_ERROR_NO_MEMORY, PTLS_ERROR_CLASS_INTERNAL])
  · cases halloc : alloc (growCap buf.capacity (buf.off + delta)) with
    | none =>
        refine ⟨Or.inr rfl, fun h => ?_, fun _ => rfl⟩
        exact absurd h.symm (by simp [PTLS_ERROR_NO_MEMORY, PTLS_ERROR_CLASS_INTERNAL])
    | some newbase =>
        refine ⟨Or.inl rfl, fun _ => ⟨growCap_ge _ _, rfl⟩, fun h => ?_⟩
        exact absurd h (by simp [PTLS_ERROR_NO_MEMORY, PTLS_ERROR_CLASS_INTERNAL])

/-- witness for C6: growing a 16-byte buffer to hold 100 more bytes. -/
theorem ptls_buffer_reserve_spec_witness :
    (ptls_buffer_reserve (fun _ => some 42) sampleBuf 100).2.off + 100
      ≤ (ptls_buffer_reserve (fun _ => some 42) sampleBuf 100).2.capacity :=
  ((ptls_buffer_reserve_spec (fun _ => some 42) sampleBuf 100).2.1 (by decide)).1

/-- the only fatal code the message loop produces is the
unexpected-message self alert. -/
theorem hsLoop_fatal_eq (exps buf : List Nat) (e : Nat) (h : hsLoop exps buf = .fatal e) :
    e = PTLS_ALERT_TO_SELF_ERROR PTLS_ALERT_UNEXPECTED_MESSAGE := by
  induction exps generalizing buf with
  | nil => simp [hsLoop] at h
  | cons t exps ih =>
      rw [hsLoop] at h
      cases hp : parseMsg buf with
      | none => rw [hp] at h; exact absurd h (by simp)
      | some v =>
          obtain ⟨ty, body, rest⟩ := v
          rw [hp] at h
          dsimp only at h
          by_cases hty : ty = t
          · rw [if_pos hty] at h
            exact ih rest h
          · rw [if_neg hty] at h
            cases h
            rfl

/-- the message loop only reports "need more input" while messages are
still expected. -/
theorem hsLoop_more_ne_nil (exps buf exps' pending : List Nat)
    (h : hsLoop exps buf = .more exps' pending) : exps' ≠ [] := by
  induction exps generalizing buf with
  | nil => simp [hsLoop] at h
  | cons t exps ih =>
      rw [hsLoop] at h
      cases hp : parseMsg buf with
      | none =>
          rw [hp] at h
          dsimp only at h
          cases h
          simp
      | some v =>
          obtain ⟨ty, body, rest⟩ := v
          rw [hp] at h
          dsimp only at h
          by_cases hty : ty = t
          · rw [if_pos hty] at h
            exact ih rest h
          · rw [if_neg hty] at h
            exact absurd h (by simp)

/-! ## Claim C2: input consumption on handshake-in-progress -/

/-- C2 counterexample: a fresh connection fed the 3-byte prefix of a
handshake message returns handshake-in-progress with `inlen` unchanged
(equal to 3) precisely because all three bytes were consumed into the
pending-input cursor — not zero bytes, as the claim reads it. -/
theorem ptls_handshake_inprogress_counterexample :
    (ptls_handshake ⟨[2, 11, 15, 20], [], none⟩ [2, 0, 0]).1
        = PTLS_ERROR_HANDSHAKE_IN_PROGRESS ∧
    (ptls_handshake ⟨[2, 11, 15, 20], [], none⟩ [2, 0, 0]).2.2 = 3 ∧
    ¬ (ptls_handshake ⟨[2, 11, 15, 20], [], none⟩ [2, 0, 0]).2.2 = 0 ∧
    (ptls_handshake ⟨[2, 11, 15, 20], [], none⟩ [2, 0, 0]).2.1.recvbuf = [2, 0, 0] := by
  decide

/-- C2 (amended): whenever `ptls_handshake` returns
`PTLS_ERROR_HANDSHAKE_IN_PROGRESS`, the returned `inlen` — the number of
bytes consumed — equals the input length: `inlen` is unchanged because
all of the input was consumed (buffered), not because none of it was. -/
theorem ptls_handshake_inprogress_inlen (tls : ModelTls) (input : List Nat)
    (hwf : tls.liveOrFatal = true)
    (h : (ptls_handshake tls input).1 = PTLS_ERROR_HANDSHAKE_IN_PROGRESS) :
    (ptls_handshake tls input).2.2 = input.length := by
  cases hf : tls.failed with
  | some e =>
      have hr : (ptls_handshake tls input).1 = e := by simp [ptls_handshake, hf]
      have hw : (e != 0) && (e != PTLS_ERROR_HANDSHAKE_IN_PROGRESS) = true := by
        simpa [ModelTls.liveOrFatal, hf] using hwf
      simp only [Bool.and_eq_true, bne_iff_ne, ne_eq] at hw
      rw [hr] at h
      exact absurd h (of_decide_eq_true hw.2)
  | none =>
      cases hl : hsLoop tls.expected (tls.recvbuf ++ input) with
      | done leftover =>
          have hr : (ptls_handshake tls input).1 = 0 := by simp [ptls_handshake, hf, hl]
          rw [hr] at h
          exact absurd h (show ¬ ((0 : Nat) = PTLS_ERROR_HANDSHAKE_IN_PROGRESS) by decide)
      | more exps pending => simp [ptls_handshake, hf, hl]
      | fatal e => simp [ptls_handshake, hf, hl]

/-- witness for the amended C2 on the concrete 3-byte prefix. -/
theorem ptls_handshake_inprogress_inlen_witness :
    (ptls_handshake ⟨[2, 11, 15, 20], [], none⟩ [2, 0, 0]).2.2 = 3 := by
  have h := ptls_handshake_inprogress_inlen ⟨[2, 11, 15, 20], [], none⟩ [2, 0, 0]
    (by decide) (by decide)
  simpa using h

/-! ## Claim C3: result classification of ptls_handshake -/

/-- C3: `ptls_handshake` returns 0 exactly when the handshake has
completed successfully (no failure recorded and no message still
expected); `PTLS_ERROR_HANDSHAKE_IN_PROGRESS` is non-terminal (the
connection is not failed); every other return value is fatal: the
failure is recorded in the connection, and every later call returns the
same error and leaves the state untouched — only disposal remains. -/
theorem ptls_handshake_result_classification (tls : ModelTls) (input : List Nat)
    (hwf : tls.liveOrFatal = true) :
    ((ptls_handshake tls input).1 = 0 ↔
      (ptls_handshake tls input).2.1.failed = none ∧
        (ptls_handshake tls input).2.1.expected = []) ∧
    ((ptls_handshake tls input).1 = PTLS_ERROR_HANDSHAKE_IN_PROGRESS →
      (ptls_handshake tls input).2.1.failed = none) ∧
    ((ptls_handshake tls input).1 ≠ 0 →
      (ptls_handshake tls input).1 ≠ PTLS_ERROR_HANDSHAKE_IN_PROGRESS →
      (ptls_handshake tls input).2.1.failed = some (ptls_handshake tls input).1 ∧
      ∀ input2 : List Nat,
        (ptls_handshake (ptls_handshake tls input).2.1 input2).1
            = (ptls_handshake tls input).1 ∧
        (ptls_handshake (ptls_handshake tls input).2.1 input2).2.1
            = (ptls_handshake tls input).2.1) := by
  cases hf : tls.failed with
  | some e =>
      have hw : (e != 0) && (e != PTLS_ERROR_HANDSHAKE_IN_PROGRESS) = true := by
        simpa [ModelTls.liveOrFatal, hf] using hwf
      simp only [Bool.and_eq_true, bne_iff_ne, ne_eq] at hw
      have hr : ptls_handshake tls input = (e, tls, 0) := by simp [ptls_handshake, hf]
      rw [hr]
      refine ⟨iff_of_false hw.1 ?_,
        fun h => absurd h (of_decide_eq_true hw.2), fun _ _ => ⟨hf, fun input2 => ?_⟩⟩
      · rintro ⟨hnone, -⟩
        rw [hf] at hnone
        cases hnone
      · have hr2 : ptls_handshake tls input2 = (e, tls, 0) := by simp [ptls_handshake, hf]
        rw [hr2]
        exact ⟨rfl, rfl⟩
  | none =>
      cases hl : hsLoop tls.expected (tls.recvbuf ++ input) with
      | done leftover =>
          have hr : ptls_handshake tls input
              = (0, ⟨[], leftover, none⟩, input.length - leftover.length) := by
            simp [ptls_handshake, hf, hl]
          rw [hr]
          refine ⟨by simp,
            fun h => absurd h (show ¬ ((0 : Nat) = PTLS_ERROR_HANDSHAKE_IN_PROGRESS) by decide),
            fun h _ => absurd rfl h⟩
      | more exps pending =>
          have hne : exps ≠ [] := hsLoop_more_ne_nil tls.expected _ exps pending hl
          have hr : ptls_handshake tls input
              = (PTLS_ERROR_HANDSHAKE_IN_PROGRESS, ⟨exps, pending, none⟩, input.length) := by
            simp [ptls_handshake, hf, hl]
          rw [hr]
          refine ⟨iff_of_false
            (show ¬ (PTLS_ERROR_HANDSHAKE_IN_PROGRESS = 0) by decide) ?_,
            fun _ => rfl, fun _ h => absurd rfl h⟩
          rintro ⟨-, hexps⟩
          exact hne hexps
      | fatal e =>
          have he : e = PTLS_ALERT_TO_SELF_ERROR PTLS_ALERT_UNEXPECTED_MESSAGE :=
            hsLoop_fatal_eq tls.expected _ e hl
          have hr : ptls_handshake tls input
              = (e, ⟨tls.expected, [], some e⟩, input.length) := by
            simp [ptls_handshake, hf, hl]
          rw [hr]
          subst he
          refine ⟨iff_of_false
            (show ¬ (PTLS_ALERT_TO_SELF_ERROR PTLS_ALERT_UNEXPECTED_MESSAGE = 0) by decide) ?_,
            fun h => absurd h (show ¬ (PTLS_ALERT_TO_SELF_ERROR PTLS_ALERT_UNEXPECTED_MESSAGE
              = PTLS_ERROR_HANDSHAKE_IN_PROGRESS) by decide),
            fun _ _ => ⟨rfl, fun input2 => ?_⟩⟩
          · rintro ⟨hnone, -⟩
            cases hnone
          · have hr2 : ptls_handshake
                ⟨tls.expected, [],
                  some (PTLS_ALERT_TO_SELF_ERROR PTLS_ALERT_UNEXPECTED_MESSAGE)⟩ input2
                = (PTLS_ALERT_TO_SELF_ERROR PTLS_ALERT_UNEXPECTED_MESSAGE,
                    ⟨tls.expected, [],
                      some (PTLS_ALERT_TO_SELF_ERROR PTLS_ALERT_UNEXPECTED_MESSAGE)⟩, 0) := by
              simp [ptls_handshake]
            rw [hr2]
            exact ⟨rfl, rfl⟩

/-- witness for C3: an out-of-order message permanently fails the
connection, recording the error in the state. -/
theorem ptls_handshake_result_classification_witness :
    (ptls_handshake ⟨[2], [], none⟩ [3, 0, 0, 0]).2.1.failed
        = some (ptls_handshake ⟨[2], [], none⟩ [3, 0, 0, 0]).1 :=
  ((ptls_handshake_result_classification ⟨[2], [], none⟩ [3, 0, 0, 0] (by decide)).2.2
    (by decide) (by decide)).1

/-- length of the block concatenation under a conforming back end. -/
theorem hkdfOkm_length (H : ptls_hash_algorithm_t) (hWF : HashWF H) (prk info : List Nat)
    (n : Nat) : (hkdfOkm H prk info n).length = n * H.digest_size := by
  induction n with
  | zero => simp [hkdfOkm]
  | succ n ih =>
      rw [hkdfOkm, List.length_append, ih, hkdfT, hWF]
      ring

/-- rounding up to a multiple of `ds` reaches the target. -/
theorem ceil_mul_ge (outlen ds : Nat) (hds : 0 < ds) :
    outlen ≤ (outlen + ds - 1) / ds * ds := by
  have hdm := Nat.div_add_mod (outlen + ds - 1) ds
  have hlt := Nat.mod_lt (outlen + ds - 1) hds
  rw [Nat.mul_comm ds ((outlen + ds - 1) / ds)] at hdm
  omega

/-! ## Claim C8: HKDF expansion length and cap -/

/-- C8: for a conforming hash back end, `ptls_hkdf_expand` produces
exactly `outlen` bytes whenever `outlen ≤ 255 x digest_size`, and for
any larger `outlen` fails with `PTLS_ERROR_LIBRARY`, an internal-class
error that coincides with no self- or peer-alert encoding. -/
theorem ptls_hkdf_expand_spec (H : ptls_hash_algorithm_t) (hWF : HashWF H)
    (prk info : List Nat) (outlen : Nat) :
    (outlen ≤ 255 * H.digest_size →
      ∃ okm, ptls_hkdf_expand H outlen prk info = .ok okm ∧ okm.length = outlen) ∧
    (255 * H.digest_size < outlen →
      ptls_hkdf_expand H outlen prk info = .error PTLS_ERROR_LIBRARY ∧
      PTLS_ERROR_GET_CLASS PTLS_ERROR_LIBRARY = PTLS_ERROR_CLASS_INTERNAL ∧
      ∀ a : Nat, a < 256 → PTLS_ERROR_LIBRARY ≠ PTLS_ALERT_TO_SELF_ERROR a ∧
        PTLS_ERROR_LIBRARY ≠ PTLS_ALERT_TO_PEER_ERROR a) := by
  constructor
  · intro hle
    refine ⟨(hkdfOkm H prk info ((outlen + H.digest_size - 1) / H.digest_size)).take outlen,
      ?_, ?_⟩
    · unfold ptls_hkdf_expand
      rw [if_neg (by omega)]
    · rw [List.length_take, hkdfOkm_length H hWF]
      rcases Nat.eq_zero_or_pos H.digest_size with h0 | hpos
      · omega
      · have hceil := ceil_mul_ge outlen H.digest_size hpos
        omega
  · intro hgt
    refine ⟨?_, by decide, ?_⟩
    · unfold ptls_hkdf_expand
      rw [if_pos hgt]
    · intro a ha
      constructor <;>
        simp only [PTLS_ERROR_LIBRARY, PTLS_ERROR_CLASS_INTERNAL, PTLS_ALERT_TO_SELF_ERROR,
          PTLS_ALERT_TO_PEER_ERROR, PTLS_ERROR_CLASS_SELF_ALERT, PTLS_ERROR_CLASS_PEER_ALERT] <;>
        omega

/-- the toy back end is conforming. -/
theorem toyHash_wf : HashWF toyHash := fun _ _ => rfl

/-- witness for C8: expanding a 2-byte-digest PRK to 5 bytes. -/
theorem ptls_hkdf_expand_spec_witness :
    ∃ okm, ptls_hkdf_expand toyHash 5 [1, 2] [3] = .ok okm ∧ okm.length = 5 :=
  (ptls_hkdf_expand_spec toyHash toyHash_wf [1, 2] [3] 5).1 (by decide)

/-- a successful `find?` returns the first element satisfying the
predicate: some position holds it and every earlier position fails. -/
theorem find?_first {α : Type} (p : α → Bool) (l : List α) (b : α)
    (h : l.find? p = some b) :
    ∃ i : Fin l.length, l.get i = b ∧ p b = true ∧
      ∀ j : Fin l.length, j.val < i.val → p (l.get j) = false := by
  induction l with
  | nil => simp [List.find?] at h
  | cons a l ih =>
      rw [List.find?] at h
      cases hp : p a with
      | true =>
          rw [hp] at h
          cases h
          refine ⟨⟨0, by simp⟩, rfl, hp, fun j hj => absurd hj (by simp)⟩
      | false =>
          rw [hp] at h
          obtain ⟨i, hget, hpb, hfirst⟩ := ih h
          refine ⟨⟨i.val + 1, by have hi := i.isLt; simp only [List.length_cons] at *; omega⟩,
            hget, hpb, fun j hj => ?_⟩
          match j with
          | ⟨0, _⟩ => exact hp
          | ⟨jv + 1, hjv⟩ =>
              exact hfirst ⟨jv, by simpa using hjv⟩ (by simpa using hj)

/-- `find?` depends on the predicate only pointwise. -/
theorem find?_congr_pred {α : Type} (p q : α → Bool) (l : List α)
    (h : ∀ a, p a = q a) : l.find? p = l.find? q := by
  induction l with
  | nil => rfl
  | cons a l ih => rw [List.find?, List.find?, h, ih]

/-! ## Claim C9: first-match-wins negotiation -/

/-- C9: a selected cipher suite is the first of the registry (in registry
order) whose ID was offered; an offer disjoint from the registry yields
the handshake-failure alert; the outcome depends on the offer only
through ID membership (not its order); and key-exchange selection obeys
the same three properties. -/
theorem negotiation_first_match (registry : List ptls_cipher_suite_t)
    (kregistry : List ptls_key_exchange_algorithm_t) (offered koffered : List Nat) :
    (∀ cs, negotiate_cipher_suite registry offered = .ok cs →
      offered.contains cs.id = true ∧
      ∃ i : Fin registry.length, registry.get i = cs ∧
        ∀ j : Fin registry.length, j.val < i.val →
          offered.contains (registry.get j).id = false) ∧
    ((∀ cs ∈ registry, offered.contains cs.id = false) →
      negotiate_cipher_suite registry offered = .error PTLS_ALERT_HANDSHAKE_FAILURE) ∧
    (∀ offered2 : List Nat, (∀ x, offered.contains x = offered2.contains x) →
      negotiate_cipher_suite registry offered = negotiate_cipher_suite registry offered2) ∧
    (∀ kx, negotiate_key_exchange kregistry koffered = .ok kx →
      koffered.contains kx.id = true ∧
      ∃ i : Fin kregistry.length, kregistry.get i = kx ∧
        ∀ j : Fin kregistry.length, j.val < i.val →
          koffered.contains (kregistry.get j).id = false) ∧
    ((∀ kx ∈ kregistry, koffered.contains kx.id = false) →
      negotiate_key_exchange kregistry koffered = .error PTLS_ALERT_HANDSHAKE_FAILURE) ∧
    (∀ koffered2 : List Nat, (∀ x, koffered.contains x = koffered2.contains x) →
      negotiate_key_exchange kregistry koffered
        = negotiate_key_exchange kregistry koffered2) := by
  refine ⟨?_, ?_, ?_, ?_, ?_, ?_⟩
  · intro cs h
    unfold negotiate_cipher_suite at h
    cases hf : registry.find? (fun cs => offered.contains cs.id) with
    | none => rw [hf] at h; cases h
    | some c =>
        rw [hf] at h
        injection h with heq
        subst heq
        obtain ⟨i, hget, hp, hfirst⟩ := find?_first _ registry c hf
        exact ⟨hp, i, hget, hfirst⟩
  · intro hdisj
    unfold negotiate_cipher_suite
    have hf : registry.find? (fun cs => offered.contains cs.id) = none := by
      rw [List.find?_eq_none]
      intro cs hmem
      rw [hdisj cs hmem]
      simp
    rw [hf]
  · intro offered2 hx
    unfold negotiate_cipher_suite
    rw [find?_congr_pred _ (fun cs => offered2.contains cs.id) registry
      (fun cs => hx cs.id)]
  · intro kx h
    unfold negotiate_key_exchange at h
    cases hf : kregistry.find? (fun kx => koffered.contains kx.id) with
    | none => rw [hf] at h; cases h
    | some c =>
        rw [hf] at h
        injection h with heq
        subst heq
        obtain ⟨i, hget, hp, hfirst⟩ := find?_first _ kregistry c hf
        exact ⟨hp, i, hget, hfirst⟩
  · intro hdisj
    unfold negotiate_key_exchange
    have hf : kregistry.find? (fun kx => koffered.contains kx.id) = none := by
      rw [List.find?_eq_none]
      intro kx hmem
      rw [hdisj kx hmem]
      simp
    rw [hf]
  · intro koffered2 hx
    unfold negotiate_key_exchange
    rw [find?_congr_pred _ (fun kx => koffered2.contains kx.id) kregistry
      (fun kx => hx kx.id)]

/-- witness for C9: with registry `[A, B]` and the offer listing B before
A, the server still selects A, and no earlier registry entry was
offered. -/
theorem negotiation_first_match_witness :
    ([0x1302, 0x1301] : List Nat).contains suiteA.id = true ∧
    ∃ i : Fin ([suiteA, suiteB] : List ptls_cipher_suite_t).length,
      ([suiteA, suiteB] : List ptls_cipher_suite_t).get i = suiteA ∧
      ∀ j : Fin ([suiteA, suiteB] : List ptls_cipher_suite_t).length, j.val < i.val →
        ([0x1302, 0x1301] : List Nat).contains
          (([suiteA, suiteB] : List ptls_cipher_suite_t).get j).id = false :=
  (negotiation_first_match [suiteA, suiteB] [] [0x1302, 0x1301] []).1 suiteA rfl

/-- C10: across any sequence of crypto-binding callback invocations, the
fields above the marker line — `algo`, `seq` and `static_iv` — are
unchanged; only the implementation-specific state below the line can
differ. -/
theorem aead_context_fields_above_line_preserved {β : Type} (B : CryptoBinding β)
    (ctx : MAeadContext β) (calls : List BindingCall) :
    (applyBindingCalls B ctx calls).algo = ctx.algo ∧
    (applyBindingCalls B ctx calls).seq = ctx.seq ∧
    (applyBindingCalls B ctx calls).static_iv = ctx.static_iv := by
  induction calls generalizing ctx with
  | nil => exact ⟨rfl, rfl, rfl⟩
  | cons c calls ih =>
      have hstep : ∀ ctx' : MAeadContext β,
          (applyBindingCall B ctx' c).algo = ctx'.algo ∧
          (applyBindingCall B ctx' c).seq = ctx'.seq ∧
          (applyBindingCall B ctx' c).static_iv = ctx'.static_iv := by
        intro ctx'
        cases c <;> exact ⟨rfl, rfl, rfl⟩
      obtain ⟨h1, h2, h3⟩ := ih (applyBindingCall B ctx c)
      obtain ⟨g1, g2, g3⟩ := hstep ctx
      exact ⟨by rw [applyBindingCalls, List.foldl_cons] at *; rw [h1, g1],
        by rw [applyBindingCalls, List.foldl_cons] at *; rw [h2, g2],
        by rw [applyBindingCalls, List.foldl_cons] at *; rw [h3, g3]⟩

/-- the fragments of a plaintext concatenate back to it. -/
theorem fragmentInput_flatten (P : List Nat) : (fragmentInput P).flatten = P := by
  induction P using fragmentInput.induct with
  | case1 => simp [fragmentInput]
  | case2 x xs ih =>
      rw [fragmentInput, List.flatten_cons, ih, List.take_append_drop]

/-- every fragment respects the record-size ceiling. -/
theorem fragmentInput_sizes (P : List Nat) :
    ∀ f ∈ fragmentInput P, f.length ≤ PTLS_MAX_PLAINTEXT_SIZE := by
  induction P using fragmentInput.induct with
  | case1 => simp [fragmentInput]
  | case2 x xs ih =>
      rw [fragmentInput]
      intro f hf
      rcases List.mem_cons.mp hf with h | h
      · subst h
        simp only [List.length_take]
        omega
      · exact ih f h

/-- receiving the encoding of one sealed record recovers the fragment,
advances the sequence counter, and consumes exactly the record. -/
theorem ptls_receive_record (A : MAead) (hA : A.Correct) (ctx : MRecCtx)
    (frag rest : List Nat) (hlen : frag.length + 1 + A.tag_size < 65536) :
    ptls_receive A ctx (encodeRecord (aeadSeal A ctx PTLS_CONTENT_TYPE_APPDATA frag) ++ rest)
      = .ok (frag, { ctx with seq := ctx.seq + 1 },
          5 + (aeadSeal A ctx PTLS_CONTENT_TYPE_APPDATA frag).length) := by
  have hct : (aeadSeal A ctx PTLS_CONTENT_TYPE_APPDATA frag).length
      = frag.length + 1 + A.tag_size := by
    unfold aeadSeal
    rw [(hA _ _ _).2]
    simp
  set ct := aeadSeal A ctx PTLS_CONTENT_TYPE_APPDATA frag with hctdef
  have harith : ct.length / 256 % 256 * 256 + ct.length % 256 = ct.length := by omega
  show ptls_receive A ctx (PTLS_CONTENT_TYPE_APPDATA :: 3 :: 1 :: (ct.length / 256 % 256) ::
      (ct.length % 256) :: (ct ++ rest)) = _
  rw [ptls_receive]
  rw [harith]
  rw [if_pos (by simp)]
  have htake : (ct ++ rest).take ct.length = ct := List.take_left ct rest
  rw [htake]
  have hdec : A.dec ctx.key (buildNonce ctx.static_iv ctx.seq) ct
      = some (frag ++ [PTLS_CONTENT_TYPE_APPDATA]) := by
    rw [hctdef]
    unfold aeadSeal
    exact (hA _ _ _).1
  rw [hdec]
  simp

/-- one step of the receive loop on a framed record. -/
theorem receiveAllAux_step (A : MAead) (fuel : Nat) (ctx : MRecCtx) (ct rest : List Nat) :
    receiveAllAux A (fuel + 1) ctx (encodeRecord ct ++ rest)
      = match ptls_receive A ctx (encodeRecord ct ++ rest) with
        | .ok (pt, ctx', consumed) =>
            match receiveAllAux A fuel ctx' ((encodeRecord ct ++ rest).drop consumed) with
            | some (r, ctxf) => some (pt ++ r, ctxf)
            | none => none
        | .error _ => none := rfl

/-- draining the protected encoding of a fragment list recovers its
concatenation and the sender's final context, for any sufficient fuel. -/
theorem receiveAllAux_send_core (A : MAead) (hA : A.Correct) (htag : A.tag_size ≤ 16384)
    (frags : List (List Nat)) (ctx : MRecCtx) (fuel : Nat)
    (hsz : ∀ f ∈ frags, f.length ≤ PTLS_MAX_PLAINTEXT_SIZE)
    (hfuel : (ptls_send_core A ctx frags).1.length < fuel) :
    receiveAllAux A fuel ctx (ptls_send_core A ctx frags).1
      = some (frags.flatten, (ptls_send_core A ctx frags).2) := by
  induction frags generalizing ctx fuel with
  | nil =>
      cases fuel with
      | zero => simp [ptls_send_core, receiveAllAux]
      | succ fuel => simp [ptls_send_core, receiveAllAux]
  | cons f frags ih =>
      have hf : f.length ≤ PTLS_MAX_PLAINTEXT_SIZE := hsz f (List.mem_cons_self f frags)
      have hrest : ∀ g ∈ frags, g.length ≤ PTLS_MAX_PLAINTEXT_SIZE :=
        fun g hg => hsz g (List.mem_cons_of_mem f hg)
      have hmax : PTLS_MAX_PLAINTEXT_SIZE = 16384 := rfl
      have hlen65536 : f.length + 1 + A.tag_size < 65536 := by omega
      have hctlen : (aeadSeal A ctx PTLS_CONTENT_TYPE_APPDATA f).length
          = f.length + 1 + A.tag_size := by
        unfold aeadSeal
        rw [(hA _ _ _).2]
        simp
      rw [ptls_send_core] at hfuel ⊢
      have hreclen : (encodeRecord (aeadSeal A ctx PTLS_CONTENT_TYPE_APPDATA f)).length
          = 5 + (aeadSeal A ctx PTLS_CONTENT_TYPE_APPDATA f).length := by
        simp [encodeRecord]
        omega
      rw [List.length_append, hreclen] at hfuel
      cases fuel with
      | zero => exact absurd hfuel (by omega)
      | succ fuel =>
          rw [receiveAllAux_step, ptls_receive_record A hA ctx f _ hlen65536]
          have hdrop : (encodeRecord (aeadSeal A ctx PTLS_CONTENT_TYPE_APPDATA f)
                ++ (ptls_send_core A { ctx with seq := ctx.seq + 1 } frags).1).drop
                (5 + (aeadSeal A ctx PTLS_CONTENT_TYPE_APPDATA f).length)
              = (ptls_send_core A { ctx with seq := ctx.seq + 1 } frags).1 := by
            rw [← hreclen]
            exact List.drop_left _ _
          have hih := ih { ctx with seq := ctx.seq + 1 } fuel hrest (by omega)
          simp only [hdrop, hih, List.flatten_cons]

/-! ## Claim C1: send/receive round trip -/

/-- C1: for every cipher suite whose AEAD back end is conforming (and has
a record-sized tag), any plaintext sent through an Established write
context is recovered exactly by draining the protected bytes through the
peer's matching read context, which ends in the sender's final state. -/
theorem ptls_send_receive_roundtrip (cs : ptls_cipher_suite_t) (hA : cs.aead.Correct)
    (htag : cs.aead.tag_size ≤ 16384) (key iv : List Nat) (seq : Nat) (P : List Nat) :
    receiveAll cs.aead { key := key, static_iv := iv, seq := seq }
        (ptls_send cs.aead { key := key, static_iv := iv, seq := seq } P).1
      = some (P, (ptls_send cs.aead { key := key, static_iv := iv, seq := seq } P).2) := by
  unfold receiveAll ptls_send
  rw [receiveAllAux_send_core cs.aead hA htag (fragmentInput P) _ _
    (fragmentInput_sizes P) (Nat.lt_succ_self _)]
  rw [fragmentInput_flatten]

/-- the toy AEAD back end is conforming. -/
theorem toyAead_correct : toyAead.Correct := by
  intro k n pt
  constructor
  · show (if (pt ++ [toyTag k n pt])
        = (pt ++ [toyTag k n pt]).dropLast
            ++ [toyTag k n (pt ++ [toyTag k n pt]).dropLast]
      then some ((pt ++ [toyTag k n pt]).dropLast) else none) = some pt
    have hd : (pt ++ [toyTag k n pt]).dropLast = pt := by simp
    rw [hd]
    simp
  · simp [toyAead]

/-- witness for C1: the four bytes of "ping" survive the round trip under
the toy suite. -/
theorem ptls_send_receive_roundtrip_witness :
    receiveAll toySuite.aead toyCtx (ptls_send toySuite.aead toyCtx [112, 105, 110, 103]).1
      = some ([112, 105, 110, 103],
          (ptls_send toySuite.aead toyCtx [112, 105, 110, 103]).2) :=
  ptls_send_receive_roundtrip toySuite toyAead_correct (by decide)
    [5] [9, 9, 9, 9, 9, 9, 9, 9, 9, 9, 9, 9] 0 [112, 105, 110, 103]

